import Mathlib

/-!
Shallow embedding of `folium/plugins/panel_layer.py` (class `PanelLayer`):
the layer-panel compiler.  Python `OrderedDict`s are modelled as association
lists with unique keys (insertion order preserved, assignment to an existing
key updates in place), Python exceptions as an `Except` error type, and the
mutable instance fields (`base_layers`, `overlayers`, `layers_untoggle`,
`icons`) as explicit state threaded through `render`.
-/

set_option autoImplicit false

namespace Folium

/-- Python exception classes raised by the code under study.
`typeError` is what Python 3 raises for `raise <str>` (raising a
non-exception object), which is what `_check_icons`'s final branch does. -/
inductive PyErr where
  | assertionError
  | typeError
  | indexError
  | keyError
deriving DecidableEq, Repr

/-- An element of the user-supplied `icons` list: either a plain string or a
nested list of strings (one sub-list per group). -/
inductive IconElem where
  | str : String → IconElem
  | list : List String → IconElem
deriving DecidableEq, Repr

/-- The `data_group_name` argument: in Python either a plain string (simple
panel) or a list of group-name strings (grouped panel). -/
inductive DGN where
  | str : String → DGN
  | list : List String → DGN
deriving DecidableEq, Repr

/-- Python `len(data_group_name)`: length of a string or of a list. -/
def dgnLen : DGN → Nat
  | DGN.str s => s.length
  | DGN.list l => l.length

/-- Iterating `data_group_name` in `for group, name in enumerate(...)`:
a Python string iterates its characters, a list its elements. -/
def dgnElems : DGN → List String
  | DGN.str s => s.data.map String.singleton
  | DGN.list l => l

/-- Python `repr` of a list of strings, used when a non-string value ends up
interpolated as text. -/
def pyStrList (l : List String) : String :=
  "[" ++ String.intercalate ", " (l.map (fun s => "\x27" ++ s ++ "\x27")) ++ "]"

/-- Python `str()` of the value placed in the `group` field. -/
def dgnStr : DGN → String
  | DGN.str s => s
  | DGN.list l => pyStrList l

/-- Python `str()` of an icon element. -/
def pyStr : IconElem → String
  | IconElem.str s => s
  | IconElem.list l => pyStrList l

/-- One child of the parent figure, as seen by `render`'s scan loop:
`isLayer` models `isinstance(item, Layer)`, `ref` models `item.get_name()`,
`show_` models `item.show`. -/
structure LayerItem where
  isLayer : Bool
  control : Bool
  layer_name : String
  overlay : Bool
  show_ : Bool
  ref : String
deriving DecidableEq, Repr

/-- One `{"name": ..., "icon": ..., "layer": ...}` dict built by
`_create_layer`. -/
structure Entry where
  name : String
  icon : String
  layer : String
deriving DecidableEq, Repr

/-- One `{"group": ..., "layers": [...]}` dict of `overlayers_data`. -/
structure GroupOut where
  group : String
  layers : List Entry
deriving DecidableEq, Repr

/-- The `PanelLayer` instance state relevant to the compiler (template-only
options such as `title`/`collapsed` are omitted; `pfx` is the `prefix`
attribute, renamed because `prefix` is reserved in Lean). -/
structure PanelLayer where
  raster_group_name : String
  data_group_name : DGN
  only_raster : Bool
  only_vector : Bool
  group_by : List (List String)
  icons : Option (List IconElem)
  pfx : String
  color : String
  base_layers : List (String × String)
  overlayers : List (String × String)
  layers_untoggle : List (String × String)
  overlayers_data : List GroupOut
deriving DecidableEq, Repr

/-- Embeds `OrderedDict` assignment `d[k] = v`: update in place if the key exists,
otherwise append at the end. -/
def odSet (d : List (String × String)) (k v : String) : List (String × String) :=
  if d.any (fun p => p.1 == k) then d.map (fun p => if p.1 == k then (k, v) else p)
  else d ++ [(k, v)]

/-- Embeds `del d[k]`: raises `KeyError` when the key is absent. -/
def odDel (d : List (String × String)) (k : String) :
    Except PyErr (List (String × String)) :=
  if d.any (fun p => p.1 == k) then Except.ok (d.filter (fun p => !(p.1 == k)))
  else Except.error PyErr.keyError

/-- The `"None "` sentinel icon value used by `_check_icons`. -/
def sentinel : IconElem := IconElem.str "None "

/-- Embeds `PanelLayer._check_icons(icons, layers, index)`.

The `index` parameter is `-1` by default (modelled as `none`) or a group
index (modelled as `some i`).  Returns the resolved icon list for the
group together with the new value of the mutable `self.icons` field: in the
flat branch the code computes `_diff = len(icons) < len(layers)` (a bool)
and executes `icons.append("None " * _diff)`, mutating `self.icons` by
appending the single string `"None "`.  In the nested branch an in-range
element is returned as-is and then iterated by `zip`: a sub-list yields its
strings, a string yields its characters. -/
def check_icons (icons : Option (List IconElem)) (nLayers : Nat)
    (index : Option Nat) :
    Except PyErr (List IconElem × Option (List IconElem)) :=
  match icons with
  | none => Except.ok (List.replicate nLayers sentinel, none)
  | some l =>
    match index with
    | none =>
      if l.length < nLayers then
        Except.ok (l ++ [sentinel], some (l ++ [sentinel]))
      else
        Except.ok (l, some l)
    | some i =>
      match l with
      | [] => Except.error PyErr.indexError
      | IconElem.list _ :: _ =>
        match l.get? i with
        | some (IconElem.list xs) => Except.ok (xs.map IconElem.str, some l)
        | some (IconElem.str s) =>
            Except.ok (s.data.map (fun c => IconElem.str (String.singleton c)), some l)
        | none => Except.ok (List.replicate nLayers sentinel, some l)
      | IconElem.str _ :: _ => Except.error PyErr.typeError

/-- Embeds `PanelLayer._icon_name(name)`. -/
def icon_name (pfx color name : String) : String :=
  "<i class=\"" ++ pfx ++ " " ++ name ++ "\" style=\"color:" ++ color ++ ";\"></i>"

/-- Embeds `PanelLayer._create_layer(layer, icon)`: a `KeyError` is raised when the
layer name is not among the registered overlay layers. -/
def create_layer (ov : List (String × String)) (pfx color : String)
    (layer : String) (icon : IconElem) : Except PyErr Entry :=
  match List.lookup layer ov with
  | some r => Except.ok ⟨layer, icon_name pfx color (pyStr icon), r⟩
  | none => Except.error PyErr.keyError

/-- The loop body of `_remove_duplicated_untoggled`, with `ls` the snapshot
of `self.layers_untoggle.values()` taken before the loop. -/
def rduGo (ls : List String) :
    List (String × String) → List (String × String) →
    Except PyErr (List (String × String))
  | ut, [] => Except.ok ut
  | ut, (k, v) :: rest =>
    if ls.contains v then
      match odDel ut k with
      | Except.error e => Except.error e
      | Except.ok ut' => rduGo ls ut' rest
    else rduGo ls ut rest

/-- Embeds `PanelLayer._remove_duplicated_untoggled(layer_type)`: for every entry of
`layer_type` whose value occurs among the untoggle values, delete that key
from `layers_untoggle`. -/
def removeDuplicatedUntoggled (ut m : List (String × String)) :
    Except PyErr (List (String × String)) :=
  rduGo (ut.map Prod.snd) ut m

/-- The three mutable maps touched by `render`'s scan loop. -/
structure ScanState where
  bl : List (String × String)
  ov : List (String × String)
  ut : List (String × String)
deriving DecidableEq, Repr

/-- Embeds `isinstance(item, Layer) and item.control`. -/
def isCtrl (it : LayerItem) : Bool := it.isLayer && it.control

/-- One iteration of `render`'s scan over `self._parent._children`. -/
def scanStep (st : ScanState) (it : LayerItem) : ScanState :=
  if !isCtrl it then st
  else if !it.overlay then
    let bl := odSet st.bl it.layer_name it.ref
    let ut := if bl.length > 1 then odSet st.ut it.layer_name it.ref else st.ut
    ⟨bl, st.ov, ut⟩
  else
    let ov := odSet st.ov it.layer_name it.ref
    let ut := if !it.show_ then odSet st.ut it.layer_name it.ref else st.ut
    ⟨st.bl, ov, ut⟩

/-- The whole scan loop of `render`. -/
def scanChildren (st : ScanState) (cs : List LayerItem) : ScanState :=
  cs.foldl scanStep st

/-- Sequential fallible map (the Python for-loop building the entry list:
first exception aborts). -/
def mapExcept {α β : Type} (f : α → Except PyErr β) :
    List α → Except PyErr (List β)
  | [] => Except.ok []
  | a :: t =>
    match f a with
    | Except.error e => Except.error e
    | Except.ok b =>
      match mapExcept f t with
      | Except.error e => Except.error e
      | Except.ok bs => Except.ok (b :: bs)

/-- The grouped loop of `render`
(`for group, name in enumerate(self.data_group_name)`), threading the
mutable `self.icons` through the successive `_check_icons` calls. -/
def buildGroups (ov : List (String × String)) (pfx color : String)
    (group_by : List (List String)) (icons : Option (List IconElem)) :
    List (Nat × String) →
    Except PyErr (List GroupOut × Option (List IconElem))
  | [] => Except.ok ([], icons)
  | (i, gname) :: rest =>
    match group_by.get? i with
    | none => Except.error PyErr.indexError
    | some layer_name =>
      match check_icons icons layer_name.length (some i) with
      | Except.error e => Except.error e
      | Except.ok r =>
        match mapExcept (fun pr => create_layer ov pfx color pr.1 pr.2)
            (layer_name.zip r.1) with
        | Except.error e => Except.error e
        | Except.ok entries =>
          match buildGroups ov pfx color group_by r.2 rest with
          | Except.error e => Except.error e
          | Except.ok r2 => Except.ok (⟨gname, entries⟩ :: r2.1, r2.2)

/-- Embeds `PanelLayer.render()`: scan the parent's children into the three maps,
apply the raster-only / vector-only suppression cleanup, then build
`overlayers_data` either as one synthetic group (no `group_by`) or via the
grouped loop guarded by the group-count assertion.  Returns the updated
instance state, or the Python exception that aborts the render pass. -/
def render (p : PanelLayer) (cs : List LayerItem) : Except PyErr PanelLayer :=
  let st := scanChildren ⟨p.base_layers, p.overlayers, p.layers_untoggle⟩ cs
  let utE : Except PyErr (List (String × String)) :=
    if p.only_raster then removeDuplicatedUntoggled st.ut st.ov
    else if p.only_vector then removeDuplicatedUntoggled st.ut st.bl
    else Except.ok st.ut
  match utE with
  | Except.error e => Except.error e
  | Except.ok ut =>
    if p.group_by.isEmpty then
      match check_icons p.icons st.ov.length none with
      | Except.error e => Except.error e
      | Except.ok r =>
        match mapExcept (fun pr => create_layer st.ov p.pfx p.color pr.1 pr.2)
            ((st.ov.map Prod.fst).zip r.1) with
        | Except.error e => Except.error e
        | Except.ok entries =>
          Except.ok { p with
            base_layers := st.bl, overlayers := st.ov, layers_untoggle := ut,
            icons := r.2,
            overlayers_data := [⟨dgnStr p.data_group_name, entries⟩] }
    else
      if p.group_by.length = dgnLen p.data_group_name then
        match buildGroups st.ov p.pfx p.color p.group_by p.icons
            ((dgnElems p.data_group_name).enum) with
        | Except.error e => Except.error e
        | Except.ok r =>
          Except.ok { p with
            base_layers := st.bl, overlayers := st.ov, layers_untoggle := ut,
            icons := r.2, overlayers_data := r.1 }
      else Except.error PyErr.assertionError

/-- The `group_by` constructor argument: a flat list of layer names or a
list of lists (`isinstance(group_by[0], list)` selects the shape). -/
inductive GroupByCfg where
  | flat : List String → GroupByCfg
  | nested : List (List String) → GroupByCfg
deriving DecidableEq, Repr

/-- Embeds the `__init__` normalisation of `group_by` (`if not group_by: []`,
wrap a flat list in a singleton). -/
def initGroupBy : Option GroupByCfg → List (List String)
  | none => []
  | some (GroupByCfg.flat l) => if l.isEmpty then [] else [l]
  | some (GroupByCfg.nested ls) => if ls.isEmpty then [] else ls

/-- Embeds `x or " "` for the group-name arguments (Python falsy: `None`, `""`,
`[]`). -/
def orBlankDGN : Option DGN → DGN
  | none => DGN.str " "
  | some (DGN.str s) => if s.isEmpty then DGN.str " " else DGN.str s
  | some (DGN.list l) => if l.isEmpty then DGN.str " " else DGN.list l

/-- Embeds `PanelLayer.__init__`: a fresh instance with empty `base_layers`,
`overlayers` and `layers_untoggle` maps. -/
def panelInit (raster_group_name data_group_name : Option DGN)
    (only_raster only_vector : Bool) (group_by : Option GroupByCfg)
    (icons : Option (List IconElem)) (pfx color : String) : PanelLayer :=
  { raster_group_name := dgnStr (orBlankDGN raster_group_name),
    data_group_name := orBlankDGN data_group_name,
    only_raster := only_raster, only_vector := only_vector,
    group_by := initGroupBy group_by,
    icons := icons,
    pfx := pfx.trim, color := color,
    base_layers := [], overlayers := [], layers_untoggle := [],
    overlayers_data := [] }

def c2_p : PanelLayer := panelInit none none false false none none "fa" "black"

def c2_cs : List LayerItem :=
  [⟨true, true, "A", false, true, "ra"⟩, ⟨true, true, "B", false, true, "rb"⟩]

def c4_p : PanelLayer :=
  panelInit none none false false none (some [IconElem.str "a"]) "fa" "black"

def c4_cs : List LayerItem :=
  [⟨true, true, "C", true, true, "rc"⟩, ⟨true, true, "D", true, true, "rd"⟩,
   ⟨true, true, "E", true, true, "re"⟩]

def c5_p : PanelLayer :=
  panelInit none (some (DGN.list ["Roads"])) false false
    (some (GroupByCfg.nested [["C"], ["D"]])) none "fa" "black"

def c8_p : PanelLayer :=
  panelInit none none false false none (some [IconElem.str "a"]) "fa" "black"

def c8_cs : List LayerItem :=
  [⟨true, true, "C", true, true, "rc"⟩, ⟨true, true, "D", true, true, "rd"⟩]

def c6_ut : List (String × String) := [("B", "rb"), ("D", "rd")]

def c6_m : List (String × String) := [("C", "rc"), ("D", "rd")]

def c9_p : PanelLayer :=
  panelInit none (some (DGN.list ["Roads", "Water"])) false false
    (some (GroupByCfg.nested [["C"], ["D"]]))
    (some [IconElem.str "x", IconElem.str "y"]) "fa" "black"

def c10_p : PanelLayer :=
  panelInit none (some (DGN.list ["Roads", "Water"])) false false
    (some (GroupByCfg.nested [["C"], ["D"]])) (some []) "fa" "black"

/-- The controllable base-layer entries `(display name, reference)` of a
child list, in registration order. -/
def baseEntries (cs : List LayerItem) : List (String × String) :=
  (cs.filter (fun it => isCtrl it && !it.overlay)).map
    (fun it => (it.layer_name, it.ref))

/-- The controllable overlay-layer entries of a child list, in registration
order. -/
def ovEntries (cs : List LayerItem) : List (String × String) :=
  (cs.filter (fun it => isCtrl it && it.overlay)).map
    (fun it => (it.layer_name, it.ref))

/-- Display names of the controllable layers, in registration order. -/
def ctrlNames (cs : List LayerItem) : List String :=
  (cs.filter (fun it => isCtrl it)).map (fun it => it.layer_name)

/-- Specification-side definition, following claim C3's wording: the
suppression entries a single render of a fresh panel must produce — every
controllable base layer after the first in registration order (`nb` counts
the base layers already seen) and every controllable overlay layer whose
show flag is false, in registration order. -/
def utSpecAux (nb : Nat) : List LayerItem → List (String × String)
  | [] => []
  | it :: rest =>
    if isCtrl it then
      if it.overlay then
        (if it.show_ then [] else [(it.layer_name, it.ref)]) ++ utSpecAux nb rest
      else
        (if nb + 1 > 1 then [(it.layer_name, it.ref)] else [])
          ++ utSpecAux (nb + 1) rest
    else utSpecAux nb rest

/-- The suppression list claim C3 predicts for a fresh render. -/
def suppressionSpec (cs : List LayerItem) : List (String × String) :=
  utSpecAux 0 cs

/-- The spec's end-to-end example: A, B shown base layers, C shown overlay,
D hidden overlay. -/
def c3_cs : List LayerItem :=
  [⟨true, true, "A", false, true, "ra"⟩, ⟨true, true, "B", false, true, "rb"⟩,
   ⟨true, true, "C", true, true, "rc"⟩, ⟨true, true, "D", true, false, "rd"⟩]

def c8a_p : PanelLayer := panelInit none none false false none none "fa" "black"

lemma dgnElems_length (d : DGN) : (dgnElems d).length = dgnLen d := by
  cases d with
  | str s => cases s with
    | mk data => simp [dgnElems, dgnLen, String.length]
  | list l => rfl

/-- C1: the flat-mode padding of `_check_icons` computes
`_diff = len(icons) < len(layers)` (a boolean) and appends `"None " * _diff`,
so for 3 layers and 1 supplied icon the resulting icon list has length 2,
not the length 3 with sentinel positions 1-2 that the claim states. -/
theorem c1_pad_single_sentinel :
    check_icons (some [IconElem.str "a"]) 3 none
      = Except.ok ([IconElem.str "a", sentinel], some [IconElem.str "a", sentinel])
    ∧ [IconElem.str "a", sentinel].length = 2 ∧ 2 ≠ 3 :=
  ⟨rfl, rfl, by decide⟩

/-- C2: `render` is not idempotent: with two shown base layers A and B, the
first render suppresses only B, but a second render with unchanged inputs
re-scans into the still-populated `base_layers` map, so `len(base_layers) > 1`
already holds when A is re-processed and A is also added to the suppression
list.  The panel configuration of render-twice differs from render-once. -/
theorem c2_not_idempotent :
    ((render c2_p c2_cs).bind (fun p => render p c2_cs)).toOption.map
        (fun p => p.layers_untoggle)
      = some [("B", "rb"), ("A", "ra")]
    ∧ (render c2_p c2_cs).toOption.map (fun p => p.layers_untoggle)
      = some [("B", "rb")]
    ∧ ([("B", "rb"), ("A", "ra")] : List (String × String)) ≠ [("B", "rb")] :=
  ⟨rfl, rfl, by decide⟩

/-- C4: with no grouping, three registered overlay layers C, D, E and one
supplied icon, the synthetic group contains only C and D: `zip` truncates to
the under-padded icon list (length 2), dropping overlay E, contradicting
"every controllable overlay layer appears, none is dropped". -/
theorem c4_overlay_dropped :
    (render c4_p c4_cs).toOption.map
        (fun p => (p.overlayers.map Prod.fst,
                   p.overlayers_data.map (fun g => g.layers.map Entry.name)))
      = some (["C", "D", "E"], [["C", "D"]])
    ∧ ("E" : String) ∈ (["C", "D", "E"] : List String)
    ∧ ("E" : String) ∉ (["C", "D"] : List String) :=
  ⟨rfl, by decide, by decide⟩

/-- C5: with an explicit grouping whose number of group lists differs from
the number of declared group names, `render` always fails with the
group-count assertion (for any children collection), so no panel
configuration is produced. -/
theorem c5_group_count_mismatch (p : PanelLayer) (cs : List LayerItem)
    (hr : p.only_raster = false) (hv : p.only_vector = false)
    (hgb : p.group_by ≠ [])
    (hlen : p.group_by.length ≠ dgnLen p.data_group_name) :
    render p cs = Except.error PyErr.assertionError := by
  have hie : p.group_by.isEmpty = false := List.isEmpty_eq_false.mpr hgb
  simp [render, hr, hv, hie, hlen]

/-- Witness for C5 at a concrete mismatched configuration
(2 group lists, 1 group name). -/
theorem c5_witness :
    (c5_p.only_raster = false ∧ c5_p.only_vector = false ∧ c5_p.group_by ≠ []
      ∧ c5_p.group_by.length ≠ dgnLen c5_p.data_group_name)
    ∧ render c5_p [] = Except.error PyErr.assertionError :=
  ⟨⟨rfl, rfl, by decide, by decide⟩,
   c5_group_count_mismatch c5_p [] rfl rfl (by decide) (by decide)⟩

/-- C7: in nested icon mode (the first icon element is a list), a group index
out of range of the icon list makes `_check_icons` return an all-sentinel
icon list of the group's length instead of raising: the `IndexError` from
`icons[index]` is caught. -/
theorem c7_oob_group_sentinel (xs : List String) (l : List IconElem) (n i : Nat)
    (hhd : l.head? = some (IconElem.list xs)) (hoob : l.length ≤ i) :
    check_icons (some l) n (some i)
      = Except.ok (List.replicate n sentinel, some l) := by
  cases l with
  | nil => simp at hhd
  | cons e rest =>
    have he : e = IconElem.list xs := by simpa using hhd
    subst he
    have hg : (IconElem.list xs :: rest)[i]? = none :=
      List.getElem?_eq_none hoob
    simp [check_icons, hg]

/-- Witness for C7: one nested icon sub-list, group index 7, group of
4 layers. -/
theorem c7_witness :
    (([IconElem.list ["x"]] : List IconElem).head? = some (IconElem.list ["x"])
      ∧ ([IconElem.list ["x"]] : List IconElem).length ≤ 7)
    ∧ check_icons (some [IconElem.list ["x"]]) 4 (some 7)
        = Except.ok (List.replicate 4 sentinel, some [IconElem.list ["x"]]) :=
  ⟨⟨rfl, by decide⟩, c7_oob_group_sentinel ["x"] [IconElem.list ["x"]] 4 7 rfl (by decide)⟩

/-- Counterexample to C8: with two overlay layers and one supplied icon, the
flat-mode padding executes `icons.append("None ")` on the very list supplied
at construction, so after `render` the `icons` attribute is
`['a', 'None ']`, not the original `['a']`. -/
theorem c8_icons_mutated :
    (render c8_p c8_cs).toOption.map (fun p => p.icons)
      = some (some [IconElem.str "a", sentinel])
    ∧ c8_p.icons = some [IconElem.str "a"]
    ∧ some [IconElem.str "a", sentinel] ≠ c8_p.icons :=
  ⟨rfl, rfl, by decide⟩

lemma contains_of_mem {l : List String} {a : String} (h : a ∈ l) :
    l.contains a = true :=
  List.contains_iff_exists_mem_beq.mpr ⟨a, h, by simp⟩

lemma mem_of_contains {l : List String} {a : String} (h : l.contains a = true) :
    a ∈ l := by
  obtain ⟨a', ha', he⟩ := List.contains_iff_exists_mem_beq.mp h
  have : a = a' := by simpa using he
  exact this ▸ ha'

lemma odDel_present (d : List (String × String)) (k : String)
    (h : k ∈ d.map Prod.fst) :
    odDel d k = Except.ok (d.filter (fun p => !(p.1 == k))) := by
  have ha : d.any (fun p => p.1 == k) = true := by
    rw [List.any_eq_true]
    obtain ⟨p, hp, he⟩ := List.mem_map.mp h
    exact ⟨p, hp, by simp [he]⟩
  simp [odDel, ha]

/-- The deletion loop of `_remove_duplicated_untoggled`: provided the
untoggle map and the excluded-family map have unique keys and a shared
reference always carries the same key (the scanner's invariants), the loop
never hits a `KeyError` and removes exactly the untoggle entries whose
reference occurs among the excluded family's references. -/
lemma rduGo_spec (ls : List String) (m : List (String × String)) :
    ∀ (ut : List (String × String)),
    (∀ e ∈ ut, ls.contains e.2 = true) →
    (ut.map Prod.fst).Nodup →
    (m.map Prod.fst).Nodup →
    (∀ e ∈ ut, ∀ e' ∈ m, e.2 = e'.2 → e.1 = e'.1) →
    (∀ e' ∈ m, ls.contains e'.2 = true → e' ∈ ut) →
    rduGo ls ut m
      = Except.ok (ut.filter (fun e => !((m.map Prod.snd).contains e.2))) := by
  induction m with
  | nil =>
    intro ut hls hnk hmk hco hinv
    simp [rduGo]
  | cons kv rest ih =>
    obtain ⟨k, v⟩ := kv
    intro ut hls hnk hmk hco hinv
    simp only [List.map_cons, List.nodup_cons] at hmk
    obtain ⟨hknr, hmk'⟩ := hmk
    by_cases hc : ls.contains v = true
    · have hmem : (k, v) ∈ ut := hinv (k, v) (List.mem_cons_self _ _) hc
      have hkk : k ∈ ut.map Prod.fst := List.mem_map.mpr ⟨(k, v), hmem, rfl⟩
      have hvls : v ∈ ls := mem_of_contains hc
      have hstep : rduGo ls ut ((k, v) :: rest)
          = rduGo ls (ut.filter (fun p => !(p.1 == k))) rest := by
        simp [rduGo, hc, hvls, odDel_present ut k hkk]
      have hfnd : ((ut.filter (fun p => !(p.1 == k))).map Prod.fst).Nodup :=
        List.Nodup.sublist (List.Sublist.map Prod.fst (List.filter_sublist ut)) hnk
      have hco' : ∀ e ∈ ut.filter (fun p => !(p.1 == k)), ∀ e' ∈ rest,
          e.2 = e'.2 → e.1 = e'.1 := fun e he e' he' =>
        hco e (List.mem_of_mem_filter he) e' (List.mem_cons_of_mem _ he')
      have hinv' : ∀ e' ∈ rest, ls.contains e'.2 = true →
          e' ∈ ut.filter (fun p => !(p.1 == k)) := by
        intro e' he' hce
        have hin : e' ∈ ut := hinv e' (List.mem_cons_of_mem _ he') hce
        rw [List.mem_filter]
        refine ⟨hin, ?_⟩
        have hne : e'.1 ≠ k := by
          intro hek
          exact hknr (hek ▸ List.mem_map.mpr ⟨e', he', rfl⟩)
        simp [hne]
      have hkey : ∀ e ∈ ut, (e.1 == k) = (e.2 == v) := by
        intro e he
        by_cases hev : e.2 = v
        · have h1 : e.1 = k := hco e he (k, v) (List.mem_cons_self _ _) hev
          simp [h1, hev]
        · have hek : e.1 ≠ k := by
            intro hek
            have heq : e = (k, v) :=
              List.inj_on_of_nodup_map hnk he hmem (by simpa using hek)
            exact hev (by rw [heq])
          simp [hek, hev]
      rw [hstep, ih _ (fun e he => hls e (List.mem_of_mem_filter he)) hfnd hmk'
        hco' hinv']
      congr 1
      rw [List.filter_filter]
      apply List.filter_congr
      intro e he
      simp only [List.map_cons, List.contains_cons, Bool.not_or]
      rw [hkey e he, Bool.and_comm]
    · have hcf : ls.contains v = false := by simpa using hc
      have hvls : v ∉ ls := fun hm => hc (contains_of_mem hm)
      have hstep : rduGo ls ut ((k, v) :: rest) = rduGo ls ut rest := by
        simp [rduGo, hcf, hvls]
      have hco' : ∀ e ∈ ut, ∀ e' ∈ rest, e.2 = e'.2 → e.1 = e'.1 :=
        fun e he e' he' => hco e he e' (List.mem_cons_of_mem _ he')
      have hinv' : ∀ e' ∈ rest, ls.contains e'.2 = true → e' ∈ ut :=
        fun e' he' hce => hinv e' (List.mem_cons_of_mem _ he') hce
      rw [hstep, ih ut hls hnk hmk' hco' hinv']
      congr 1
      apply List.filter_congr
      intro e he
      have hev : (e.2 == v) = false := by
        by_cases h2 : e.2 = v
        · exact absurd (h2 ▸ hls e he) (fun hct => hvls (mem_of_contains hct))
        · simp [h2]
      simp only [List.map_cons, List.contains_cons, Bool.not_or, hev]
      simp

/-- C6: `_remove_duplicated_untoggled` (invoked by `render` on the overlay
mapping under `only_raster`, and on the base mapping under `only_vector`)
removes from the suppression map exactly the entries whose underlying
reference appears among the excluded family's references, leaving every
other suppression entry (in particular every base-layer entry in the
raster-only case) unchanged and in order.  The hypotheses are the scanner's
invariants: unique keys in each map, and a shared reference always stored
under the same display name. -/
theorem c6_restriction_removes_excluded (ut m : List (String × String))
    (hnk : (ut.map Prod.fst).Nodup) (hmk : (m.map Prod.fst).Nodup)
    (hco : ∀ e ∈ ut, ∀ e' ∈ m, e.2 = e'.2 → e.1 = e'.1) :
    removeDuplicatedUntoggled ut m
      = Except.ok (ut.filter (fun e => !((m.map Prod.snd).contains e.2))) := by
  apply rduGo_spec
  · intro e he
    exact contains_of_mem (List.mem_map.mpr ⟨e, he, rfl⟩)
  · exact hnk
  · exact hmk
  · exact hco
  · intro e' he' hce
    have hmemv : e'.2 ∈ ut.map Prod.snd := mem_of_contains hce
    obtain ⟨e, he, hee⟩ := List.mem_map.mp hmemv
    have h1 : e.1 = e'.1 := hco e he e' he' hee
    have heq : e' = e := by
      cases e
      cases e'
      simp_all
    exact heq ▸ he

/-- Witness for C6: suppression map `{B ↦ rb, D ↦ rd}` (one base entry, one
hidden-overlay entry), overlay mapping `{C ↦ rc, D ↦ rd}`: the overlay
entry D is removed, the base entry B survives. -/
theorem c6_witness :
    ((c6_ut.map Prod.fst).Nodup ∧ (c6_m.map Prod.fst).Nodup
      ∧ (∀ e ∈ c6_ut, ∀ e' ∈ c6_m, e.2 = e'.2 → e.1 = e'.1))
    ∧ removeDuplicatedUntoggled c6_ut c6_m
        = Except.ok (c6_ut.filter (fun e => !((c6_m.map Prod.snd).contains e.2))) :=
  ⟨⟨by decide, by decide, by decide⟩,
   c6_restriction_removes_excluded c6_ut c6_m (by decide) (by decide) (by decide)⟩

/-- C9: in grouped mode with a well-formed group count but a malformed icon
configuration (non-empty, first element not a list), `render` fails with the
`TypeError`-class error from `_check_icons`'s final `raise` (raising a
non-exception string is a `TypeError` in Python 3), producing no panel
configuration. -/
theorem c9_malformed_icons (p : PanelLayer) (cs : List LayerItem)
    (s : String) (restIc : List IconElem)
    (hr : p.only_raster = false) (hv : p.only_vector = false)
    (hgb : p.group_by ≠ [])
    (hlen : p.group_by.length = dgnLen p.data_group_name)
    (hic : p.icons = some (IconElem.str s :: restIc)) :
    render p cs = Except.error PyErr.typeError := by
  obtain ⟨gl, gbs, hgbe⟩ := List.exists_cons_of_ne_nil hgb
  have hdne : dgnElems p.data_group_name ≠ [] := by
    intro h
    have hl := dgnElems_length p.data_group_name
    rw [h, ← hlen, hgbe] at hl
    simp at hl
  obtain ⟨e0, es, hde⟩ := List.exists_cons_of_ne_nil hdne
  have hie : p.group_by.isEmpty = false := List.isEmpty_eq_false.mpr hgb
  rw [hgbe] at hlen
  simp [render, hr, hv, hie, hlen, hde, List.enum, hgbe, buildGroups,
    check_icons, hic, List.getElem?_cons_zero]

/-- Witness for C9: two groups, flat string icons. -/
theorem c9_witness :
    (c9_p.only_raster = false ∧ c9_p.only_vector = false ∧ c9_p.group_by ≠ []
      ∧ c9_p.group_by.length = dgnLen c9_p.data_group_name
      ∧ c9_p.icons = some (IconElem.str "x" :: [IconElem.str "y"]))
    ∧ render c9_p [] = Except.error PyErr.typeError :=
  ⟨⟨rfl, rfl, by decide, by decide, rfl⟩,
   c9_malformed_icons c9_p [] "x" [IconElem.str "y"] rfl rfl (by decide)
     (by decide) rfl⟩

/-- C10: in grouped mode with a supplied but empty icon list, the shape test
`isinstance(icons[0], list)` evaluates `icons[0]` outside any handler, so
`render` fails with an unguarded `IndexError` rather than sentinel icons or
the documented configuration/type errors. -/
theorem c10_empty_icons_indexerror (p : PanelLayer) (cs : List LayerItem)
    (hr : p.only_raster = false) (hv : p.only_vector = false)
    (hgb : p.group_by ≠ [])
    (hlen : p.group_by.length = dgnLen p.data_group_name)
    (hic : p.icons = some []) :
    render p cs = Except.error PyErr.indexError := by
  obtain ⟨gl, gbs, hgbe⟩ := List.exists_cons_of_ne_nil hgb
  have hdne : dgnElems p.data_group_name ≠ [] := by
    intro h
    have hl := dgnElems_length p.data_group_name
    rw [h, ← hlen, hgbe] at hl
    simp at hl
  obtain ⟨e0, es, hde⟩ := List.exists_cons_of_ne_nil hdne
  have hie : p.group_by.isEmpty = false := List.isEmpty_eq_false.mpr hgb
  rw [hgbe] at hlen
  simp [render, hr, hv, hie, hlen, hde, List.enum, hgbe, buildGroups,
    check_icons, hic, List.getElem?_cons_zero]

/-- Witness for C10: two groups, empty icon list. -/
theorem c10_witness :
    (c10_p.only_raster = false ∧ c10_p.only_vector = false ∧ c10_p.group_by ≠ []
      ∧ c10_p.group_by.length = dgnLen c10_p.data_group_name
      ∧ c10_p.icons = some [])
    ∧ render c10_p [] = Except.error PyErr.indexError :=
  ⟨⟨rfl, rfl, by decide, by decide, rfl⟩,
   c10_empty_icons_indexerror c10_p [] rfl rfl (by decide) (by decide) rfl⟩

lemma odSet_fresh (d : List (String × String)) (k v : String)
    (h : k ∉ d.map Prod.fst) : odSet d k v = d ++ [(k, v)] := by
  have ha : d.any (fun p => p.1 == k) = false := by
    rw [List.any_eq_false]
    intro p hp hpk
    exact h (List.mem_map.mpr ⟨p, hp, by simpa using hpk⟩)
  simp [odSet, ha]

lemma not_mem_keys_append_single {d : List (String × String)} {k k' v' : String}
    (h1 : k ∉ d.map Prod.fst) (h2 : k ≠ k') :
    k ∉ (d ++ [(k', v')]).map Prod.fst := by
  intro h
  rw [List.map_append, List.mem_append] at h
  cases h with
  | inl h => exact h1 h
  | inr h =>
    simp only [List.map_cons, List.map_nil, List.mem_singleton] at h
    exact h2 h

/-- The scan loop of `render`, started from a state whose keys are disjoint
from the controllable display names (in particular, from a fresh instance),
appends exactly the base entries, the overlay entries, and — when the names
are unique — the suppression entries predicted by `utSpecAux` (offset by the
number of base layers already present). -/
lemma scanChildren_char (cs : List LayerItem) :
    ∀ st : ScanState,
    (∀ it ∈ cs, isCtrl it = true →
        it.layer_name ∉ st.bl.map Prod.fst ∧ it.layer_name ∉ st.ov.map Prod.fst
          ∧ it.layer_name ∉ st.ut.map Prod.fst) →
    (ctrlNames cs).Nodup →
    scanChildren st cs
      = ⟨st.bl ++ baseEntries cs, st.ov ++ ovEntries cs,
         st.ut ++ utSpecAux st.bl.length cs⟩ := by
  induction cs with
  | nil =>
    intro st _ _
    simp [scanChildren, baseEntries, ovEntries, utSpecAux, ctrlNames]
  | cons it rest ih =>
    intro st hdisj hnd
    have hstep : scanChildren st (it :: rest)
        = scanChildren (scanStep st it) rest := rfl
    cases hctrl : isCtrl it with
    | false =>
      have hskip : scanStep st it = st := by simp [scanStep, hctrl]
      have hnames : ctrlNames (it :: rest) = ctrlNames rest := by
        simp [ctrlNames, hctrl]
      have hbe : baseEntries (it :: rest) = baseEntries rest := by
        simp [baseEntries, hctrl]
      have hoe : ovEntries (it :: rest) = ovEntries rest := by
        simp [ovEntries, hctrl]
      have hue : utSpecAux st.bl.length (it :: rest)
          = utSpecAux st.bl.length rest := by
        simp [utSpecAux, hctrl]
      rw [hstep, hskip,
        ih st (fun j hj hcj => hdisj j (List.mem_cons_of_mem _ hj) hcj)
          (hnames ▸ hnd), hbe, hoe, hue]
    | true =>
      obtain ⟨hb, ho, hu⟩ := hdisj it (List.mem_cons_self _ _) hctrl
      have hnames : ctrlNames (it :: rest) = it.layer_name :: ctrlNames rest := by
        simp [ctrlNames, hctrl]
      rw [hnames] at hnd
      have hndr : (ctrlNames rest).Nodup := (List.nodup_cons.mp hnd).2
      have hniq : it.layer_name ∉ ctrlNames rest := (List.nodup_cons.mp hnd).1
      have hne : ∀ j ∈ rest, isCtrl j = true → j.layer_name ≠ it.layer_name := by
        intro j hj hcj hjn
        exact hniq (hjn ▸ List.mem_map.mpr ⟨j, List.mem_filter.mpr ⟨hj, hcj⟩, rfl⟩)
      have hdr : ∀ j ∈ rest, isCtrl j = true →
          j.layer_name ∉ st.bl.map Prod.fst ∧ j.layer_name ∉ st.ov.map Prod.fst
            ∧ j.layer_name ∉ st.ut.map Prod.fst :=
        fun j hj hcj => hdisj j (List.mem_cons_of_mem _ hj) hcj
      cases hov : it.overlay with
      | false =>
        by_cases hlen : st.bl.length + 1 > 1
        · have hsets : scanStep st it
              = ⟨st.bl ++ [(it.layer_name, it.ref)], st.ov,
                 st.ut ++ [(it.layer_name, it.ref)]⟩ := by
            simp [scanStep, hctrl, hov, odSet_fresh st.bl _ _ hb,
              odSet_fresh st.ut _ _ hu, hlen]
          have hdisj' : ∀ j ∈ rest, isCtrl j = true →
              j.layer_name ∉ (st.bl ++ [(it.layer_name, it.ref)]).map Prod.fst
                ∧ j.layer_name ∉ st.ov.map Prod.fst
                ∧ j.layer_name
                    ∉ (st.ut ++ [(it.layer_name, it.ref)]).map Prod.fst := by
            intro j hj hcj
            obtain ⟨hb', ho', hu'⟩ := hdr j hj hcj
            exact ⟨not_mem_keys_append_single hb' (hne j hj hcj), ho',
              not_mem_keys_append_single hu' (hne j hj hcj)⟩
          have hrec := ih ⟨st.bl ++ [(it.layer_name, it.ref)], st.ov,
              st.ut ++ [(it.layer_name, it.ref)]⟩ hdisj' hndr
          rw [hstep, hsets, hrec]
          have hbe : baseEntries (it :: rest)
              = (it.layer_name, it.ref) :: baseEntries rest := by
            simp [baseEntries, hctrl, hov]
          have hoe : ovEntries (it :: rest) = ovEntries rest := by
            simp [ovEntries, hctrl, hov]
          have hue : utSpecAux st.bl.length (it :: rest)
              = (it.layer_name, it.ref) :: utSpecAux (st.bl.length + 1) rest := by
            simp [utSpecAux, hctrl, hov, hlen]
          rw [hbe, hoe, hue]
          simp [List.append_assoc]
        · have hsets : scanStep st it
              = ⟨st.bl ++ [(it.layer_name, it.ref)], st.ov, st.ut⟩ := by
            simp [scanStep, hctrl, hov, odSet_fresh st.bl _ _ hb, hlen]
          have hdisj' : ∀ j ∈ rest, isCtrl j = true →
              j.layer_name ∉ (st.bl ++ [(it.layer_name, it.ref)]).map Prod.fst
                ∧ j.layer_name ∉ st.ov.map Prod.fst
                ∧ j.layer_name ∉ st.ut.map Prod.fst := by
            intro j hj hcj
            obtain ⟨hb', ho', hu'⟩ := hdr j hj hcj
            exact ⟨not_mem_keys_append_single hb' (hne j hj hcj), ho', hu'⟩
          have hrec := ih ⟨st.bl ++ [(it.layer_name, it.ref)], st.ov, st.ut⟩
              hdisj' hndr
          rw [hstep, hsets, hrec]
          have hbe : baseEntries (it :: rest)
              = (it.layer_name, it.ref) :: baseEntries rest := by
            simp [baseEntries, hctrl, hov]
          have hoe : ovEntries (it :: rest) = ovEntries rest := by
            simp [ovEntries, hctrl, hov]
          have hue : utSpecAux st.bl.length (it :: rest)
              = utSpecAux (st.bl.length + 1) rest := by
            simp [utSpecAux, hctrl, hov, hlen]
          rw [hbe, hoe, hue]
          simp [List.append_assoc]
      | true =>
        cases hsh : it.show_ with
        | false =>
          have hsets : scanStep st it
              = ⟨st.bl, st.ov ++ [(it.layer_name, it.ref)],
                 st.ut ++ [(it.layer_name, it.ref)]⟩ := by
            simp [scanStep, hctrl, hov, hsh, odSet_fresh st.ov _ _ ho,
              odSet_fresh st.ut _ _ hu]
          have hdisj' : ∀ j ∈ rest, isCtrl j = true →
              j.layer_name ∉ st.bl.map Prod.fst
                ∧ j.layer_name ∉ (st.ov ++ [(it.layer_name, it.ref)]).map Prod.fst
                ∧ j.layer_name
                    ∉ (st.ut ++ [(it.layer_name, it.ref)]).map Prod.fst := by
            intro j hj hcj
            obtain ⟨hb', ho', hu'⟩ := hdr j hj hcj
            exact ⟨hb', not_mem_keys_append_single ho' (hne j hj hcj),
              not_mem_keys_append_single hu' (hne j hj hcj)⟩
          have hrec := ih ⟨st.bl, st.ov ++ [(it.layer_name, it.ref)],
              st.ut ++ [(it.layer_name, it.ref)]⟩ hdisj' hndr
          rw [hstep, hsets, hrec]
          have hbe : baseEntries (it :: rest) = baseEntries rest := by
            simp [baseEntries, hctrl, hov]
          have hoe : ovEntries (it :: rest)
              = (it.layer_name, it.ref) :: ovEntries rest := by
            simp [ovEntries, hctrl, hov]
          have hue : utSpecAux st.bl.length (it :: rest)
              = (it.layer_name, it.ref) :: utSpecAux st.bl.length rest := by
            simp [utSpecAux, hctrl, hov, hsh]
          rw [hbe, hoe, hue]
          simp [List.append_assoc]
        | true =>
          have hsets : scanStep st it
              = ⟨st.bl, st.ov ++ [(it.layer_name, it.ref)], st.ut⟩ := by
            simp [scanStep, hctrl, hov, hsh, odSet_fresh st.ov _ _ ho]
          have hdisj' : ∀ j ∈ rest, isCtrl j = true →
              j.layer_name ∉ st.bl.map Prod.fst
                ∧ j.layer_name ∉ (st.ov ++ [(it.layer_name, it.ref)]).map Prod.fst
                ∧ j.layer_name ∉ st.ut.map Prod.fst := by
            intro j hj hcj
            obtain ⟨hb', ho', hu'⟩ := hdr j hj hcj
            exact ⟨hb', not_mem_keys_append_single ho' (hne j hj hcj), hu'⟩
          have hrec := ih ⟨st.bl, st.ov ++ [(it.layer_name, it.ref)], st.ut⟩
              hdisj' hndr
          rw [hstep, hsets, hrec]
          have hbe : baseEntries (it :: rest) = baseEntries rest := by
            simp [baseEntries, hctrl, hov]
          have hoe : ovEntries (it :: rest)
              = (it.layer_name, it.ref) :: ovEntries rest := by
            simp [ovEntries, hctrl, hov]
          have hue : utSpecAux st.bl.length (it :: rest)
              = utSpecAux st.bl.length rest := by
            simp [utSpecAux, hctrl, hov, hsh]
          rw [hbe, hoe, hue]
          simp [List.append_assoc]

/-- Every key of the spec-side suppression list is the display name of a
controllable child that is a base layer or a hidden overlay layer. -/
lemma utSpecAux_keys_src (cs : List LayerItem) :
    ∀ (nb : Nat) (k : String), k ∈ (utSpecAux nb cs).map Prod.fst →
      ∃ j, j ∈ cs ∧ isCtrl j = true ∧ j.layer_name = k
        ∧ (j.overlay = false ∨ j.show_ = false) := by
  induction cs with
  | nil => intro nb k h; simp [utSpecAux] at h
  | cons it rest ih =>
    intro nb k h
    cases hctrl : isCtrl it with
    | false =>
      rw [show utSpecAux nb (it :: rest) = utSpecAux nb rest by
        simp [utSpecAux, hctrl]] at h
      obtain ⟨j, hj, h2, h3, h4⟩ := ih nb k h
      exact ⟨j, List.mem_cons_of_mem _ hj, h2, h3, h4⟩
    | true =>
      cases hov : it.overlay with
      | true =>
        cases hsh : it.show_ with
        | true =>
          rw [show utSpecAux nb (it :: rest) = utSpecAux nb rest by
            simp [utSpecAux, hctrl, hov, hsh]] at h
          obtain ⟨j, hj, h2, h3, h4⟩ := ih nb k h
          exact ⟨j, List.mem_cons_of_mem _ hj, h2, h3, h4⟩
        | false =>
          rw [show utSpecAux nb (it :: rest)
              = (it.layer_name, it.ref) :: utSpecAux nb rest by
            simp [utSpecAux, hctrl, hov, hsh]] at h
          rw [List.map_cons, List.mem_cons] at h
          cases h with
          | inl h =>
            exact ⟨it, List.mem_cons_self _ _, hctrl, h.symm, Or.inr hsh⟩
          | inr h =>
            obtain ⟨j, hj, h2, h3, h4⟩ := ih nb k h
            exact ⟨j, List.mem_cons_of_mem _ hj, h2, h3, h4⟩
      | false =>
        by_cases hlen : nb + 1 > 1
        · rw [show utSpecAux nb (it :: rest)
              = (it.layer_name, it.ref) :: utSpecAux (nb + 1) rest by
            simp [utSpecAux, hctrl, hov, hlen]] at h
          rw [List.map_cons, List.mem_cons] at h
          cases h with
          | inl h =>
            exact ⟨it, List.mem_cons_self _ _, hctrl, h.symm, Or.inl hov⟩
          | inr h =>
            obtain ⟨j, hj, h2, h3, h4⟩ := ih (nb + 1) k h
            exact ⟨j, List.mem_cons_of_mem _ hj, h2, h3, h4⟩
        · rw [show utSpecAux nb (it :: rest) = utSpecAux (nb + 1) rest by
            simp [utSpecAux, hctrl, hov, hlen]] at h
          obtain ⟨j, hj, h2, h3, h4⟩ := ih (nb + 1) k h
          exact ⟨j, List.mem_cons_of_mem _ hj, h2, h3, h4⟩

/-- Counting the spec-side suppression entries whose key lies in a name set
`S` that contains every controllable base name and no controllable overlay
name: one entry per controllable base layer, minus one when no base layer
was seen yet. -/
lemma utSpecAux_count (S : List String) (cs : List LayerItem) :
    ∀ nb : Nat,
    (∀ it ∈ cs, isCtrl it = true → it.overlay = false →
        S.contains it.layer_name = true) →
    (∀ it ∈ cs, isCtrl it = true → it.overlay = true →
        S.contains it.layer_name = false) →
    (utSpecAux nb cs).countP (fun e => S.contains e.1)
      = cs.countP (fun it => isCtrl it && !it.overlay)
          - (if nb = 0 then 1 else 0) := by
  induction cs with
  | nil => intro nb _ _; simp [utSpecAux]
  | cons it rest ih =>
    intro nb hb ho
    have hbr : ∀ j ∈ rest, isCtrl j = true → j.overlay = false →
        S.contains j.layer_name = true :=
      fun j hj => hb j (List.mem_cons_of_mem _ hj)
    have hor : ∀ j ∈ rest, isCtrl j = true → j.overlay = true →
        S.contains j.layer_name = false :=
      fun j hj => ho j (List.mem_cons_of_mem _ hj)
    cases hctrl : isCtrl it with
    | false =>
      rw [show utSpecAux nb (it :: rest) = utSpecAux nb rest by
        simp [utSpecAux, hctrl]]
      rw [ih nb hbr hor,
        List.countP_cons_of_neg _ _ (by simp [hctrl])]
    | true =>
      cases hov : it.overlay with
      | true =>
        have hcnt : (it :: rest).countP (fun j => isCtrl j && !j.overlay)
            = rest.countP (fun j => isCtrl j && !j.overlay) :=
          List.countP_cons_of_neg _ _ (by simp [hctrl, hov])
        cases hsh : it.show_ with
        | true =>
          rw [show utSpecAux nb (it :: rest) = utSpecAux nb rest by
            simp [utSpecAux, hctrl, hov, hsh]]
          rw [ih nb hbr hor, hcnt]
        | false =>
          rw [show utSpecAux nb (it :: rest)
              = (it.layer_name, it.ref) :: utSpecAux nb rest by
            simp [utSpecAux, hctrl, hov, hsh]]
          have hoit : S.contains it.layer_name = false :=
            ho it (List.mem_cons_self _ _) hctrl hov
          rw [List.countP_cons_of_neg _ _ (by simpa using hoit), ih nb hbr hor,
            hcnt]
      | false =>
        have hbit : S.contains it.layer_name = true :=
          hb it (List.mem_cons_self _ _) hctrl hov
        have hcnt : (it :: rest).countP (fun j => isCtrl j && !j.overlay)
            = rest.countP (fun j => isCtrl j && !j.overlay) + 1 :=
          List.countP_cons_of_pos _ _ (by simp [hctrl, hov])
        cases hnb : nb with
        | zero =>
          rw [show utSpecAux 0 (it :: rest) = utSpecAux 1 rest by
            simp [utSpecAux, hctrl, hov]]
          rw [ih 1 hbr hor, hcnt]
          simp
        | succ m =>
          rw [show utSpecAux (m + 1) (it :: rest)
              = (it.layer_name, it.ref) :: utSpecAux (m + 2) rest by
            simp [utSpecAux, hctrl, hov]]
          rw [List.countP_cons_of_pos _ _ (by simpa using hbit), ih (m + 2) hbr hor,
            hcnt]
          simp

lemma lookup_isSome_of_mem_keys {d : List (String × String)} {k : String}
    (h : k ∈ d.map Prod.fst) : (List.lookup k d).isSome = true := by
  simp only [List.lookup_isSome_iff]
  obtain ⟨p, hp, he⟩ := List.mem_map.mp h
  exact ⟨p, hp, by simp [he]⟩

lemma mapExcept_ok {α β : Type} (f : α → Except PyErr β) :
    ∀ l : List α, (∀ a ∈ l, ∃ b, f a = Except.ok b) →
      ∃ bs : List β, mapExcept f l = Except.ok bs := by
  intro l
  induction l with
  | nil => intro _; exact ⟨[], rfl⟩
  | cons a t ih =>
    intro h
    obtain ⟨b, hb⟩ := h a (List.mem_cons_self _ _)
    obtain ⟨bs, hbs⟩ := ih (fun x hx => h x (List.mem_cons_of_mem _ hx))
    exact ⟨b :: bs, by simp [mapExcept, hb, hbs]⟩

/-- Reduction of `render` in the default configuration (no restriction, no
grouping, no icons), given that every overlay entry can be looked up. -/
lemma render_simple_none (p : PanelLayer) (cs : List LayerItem)
    (hr : p.only_raster = false) (hv : p.only_vector = false)
    (hgb : p.group_by = []) (hic : p.icons = none) (es : List Entry)
    (hes : mapExcept
        (fun pr => create_layer
          (scanChildren ⟨p.base_layers, p.overlayers, p.layers_untoggle⟩ cs).ov
          p.pfx p.color pr.1 pr.2)
        (((scanChildren ⟨p.base_layers, p.overlayers, p.layers_untoggle⟩
            cs).ov.map Prod.fst).zip
          (List.replicate
            (scanChildren ⟨p.base_layers, p.overlayers, p.layers_untoggle⟩
              cs).ov.length sentinel)) = Except.ok es) :
    render p cs = Except.ok { p with
      base_layers :=
        (scanChildren ⟨p.base_layers, p.overlayers, p.layers_untoggle⟩ cs).bl,
      overlayers :=
        (scanChildren ⟨p.base_layers, p.overlayers, p.layers_untoggle⟩ cs).ov,
      layers_untoggle :=
        (scanChildren ⟨p.base_layers, p.overlayers, p.layers_untoggle⟩ cs).ut,
      icons := none,
      overlayers_data := [⟨dgnStr p.data_group_name, es⟩] } := by
  simp [render, hr, hv, hgb, hic, check_icons, hes]

/-- C3: after one render of a fresh `PanelLayer` (no raster/vector
restriction, default grouping and icons) over children with pairwise
distinct controllable display names, the suppression list is exactly
`suppressionSpec`: every base layer after the first in registration order
plus every hidden overlay layer; its base-layer entry count is
`baseLayerCount - 1` (truncated at 0); and no shown overlay layer occurs
in it. -/
theorem c3_suppression (cs : List LayerItem) (rgn dgn : Option DGN)
    (hnd : (ctrlNames cs).Nodup) :
    ∃ p', render (panelInit rgn dgn false false none none "fa" "black") cs
        = Except.ok p'
      ∧ p'.layers_untoggle = suppressionSpec cs
      ∧ p'.layers_untoggle.countP
          (fun e => ((baseEntries cs).map Prod.fst).contains e.1)
        = (baseEntries cs).length - 1
      ∧ (∀ it ∈ cs, isCtrl it = true → it.overlay = true → it.show_ = true →
          it.layer_name ∉ p'.layers_untoggle.map Prod.fst) := by
  have hscan : scanChildren
      ⟨(panelInit rgn dgn false false none none "fa" "black").base_layers,
       (panelInit rgn dgn false false none none "fa" "black").overlayers,
       (panelInit rgn dgn false false none none "fa" "black").layers_untoggle⟩ cs
      = ⟨baseEntries cs, ovEntries cs, utSpecAux 0 cs⟩ := by
    show scanChildren ⟨[], [], []⟩ cs
      = (⟨baseEntries cs, ovEntries cs, utSpecAux 0 cs⟩ : ScanState)
    rw [scanChildren_char cs ⟨[], [], []⟩ (by intro j _ _; simp) hnd]
    simp
  have hmapm : ∃ es, mapExcept
      (fun pr => create_layer (ovEntries cs)
        (panelInit rgn dgn false false none none "fa" "black").pfx
        (panelInit rgn dgn false false none none "fa" "black").color
        pr.1 pr.2)
      (((ovEntries cs).map Prod.fst).zip
        (List.replicate (ovEntries cs).length sentinel)) = Except.ok es := by
    apply mapExcept_ok
    intro pr hpr
    have h1 : pr.1 ∈ (ovEntries cs).map Prod.fst := (List.of_mem_zip hpr).1
    obtain ⟨r, hrr⟩ := Option.isSome_iff_exists.mp (lookup_isSome_of_mem_keys h1)
    refine ⟨⟨pr.1, icon_name (panelInit rgn dgn false false none none "fa"
        "black").pfx (panelInit rgn dgn false false none none "fa" "black").color
        (pyStr pr.2), r⟩, ?_⟩
    unfold create_layer
    rw [hrr]
  obtain ⟨es, hes⟩ := hmapm
  have hren := render_simple_none
    (panelInit rgn dgn false false none none "fa" "black") cs rfl rfl rfl rfl es
    (by rw [hscan]; exact hes)
  rw [hscan] at hren
  refine ⟨_, hren, ?_, ?_, ?_⟩
  · rfl
  · show (utSpecAux 0 cs).countP
        (fun e => ((baseEntries cs).map Prod.fst).contains e.1)
      = (baseEntries cs).length - 1
    rw [utSpecAux_count ((baseEntries cs).map Prod.fst) cs 0 ?hbS ?hoS]
    case hbS =>
      intro it hit hc hov
      apply contains_of_mem
      exact List.mem_map.mpr ⟨(it.layer_name, it.ref),
        List.mem_map.mpr ⟨it, List.mem_filter.mpr ⟨hit, by simp [hc, hov]⟩, rfl⟩,
        rfl⟩
    case hoS =>
      intro it hit hc hov
      cases hx : ((baseEntries cs).map Prod.fst).contains it.layer_name with
      | false => rfl
      | true =>
        exfalso
        have hmem := mem_of_contains hx
        obtain ⟨e, he, hee⟩ := List.mem_map.mp hmem
        obtain ⟨j, hj, hje⟩ := List.mem_map.mp he
        have hjcs : j ∈ cs := (List.mem_filter.mp hj).1
        have hjpred := (List.mem_filter.mp hj).2
        rw [Bool.and_eq_true] at hjpred
        have hjc : isCtrl j = true := hjpred.1
        have hjov : j.overlay = false := by
          have := hjpred.2
          simpa using this
        have hname : j.layer_name = it.layer_name := by rw [← hee, ← hje]
        have hj' : j ∈ cs.filter (fun x => isCtrl x) :=
          List.mem_filter.mpr ⟨hjcs, hjc⟩
        have hit' : it ∈ cs.filter (fun x => isCtrl x) :=
          List.mem_filter.mpr ⟨hit, hc⟩
        have hji : j = it := List.inj_on_of_nodup_map hnd hj' hit' hname
        rw [hji, hov] at hjov
        exact absurd hjov (by simp)
    · have hlenB : (baseEntries cs).length
          = cs.countP (fun it => isCtrl it && !it.overlay) := by
        simp [baseEntries, List.countP_eq_length_filter]
      rw [hlenB]
      simp
  · intro it hit hc hov hsh
    show it.layer_name ∉ (utSpecAux 0 cs).map Prod.fst
    intro hk
    obtain ⟨j, hj, hjc, hjn, hjor⟩ := utSpecAux_keys_src cs 0 it.layer_name hk
    have hj' : j ∈ cs.filter (fun x => isCtrl x) :=
      List.mem_filter.mpr ⟨hj, hjc⟩
    have hit' : it ∈ cs.filter (fun x => isCtrl x) :=
      List.mem_filter.mpr ⟨hit, hc⟩
    have hji : j = it := List.inj_on_of_nodup_map hnd hj' hit' hjn
    cases hjor with
    | inl h => rw [hji, hov] at h; exact absurd h (by simp)
    | inr h => rw [hji, hsh] at h; exact absurd h (by simp)

/-- Witness for C3 at the spec's end-to-end example (two shown base layers,
one shown overlay, one hidden overlay): the suppression list is `{B, D}`. -/
theorem c3_witness :
    (ctrlNames c3_cs).Nodup
    ∧ (∃ p', render (panelInit none none false false none none "fa" "black")
          c3_cs = Except.ok p'
      ∧ p'.layers_untoggle = suppressionSpec c3_cs
      ∧ p'.layers_untoggle.countP
          (fun e => ((baseEntries c3_cs).map Prod.fst).contains e.1)
        = (baseEntries c3_cs).length - 1
      ∧ (∀ it ∈ c3_cs, isCtrl it = true → it.overlay = true → it.show_ = true →
          it.layer_name ∉ p'.layers_untoggle.map Prod.fst)) :=
  ⟨by decide, c3_suppression c3_cs none none (by decide)⟩

/-- Calling `_check_icons` with a group index (grouped mode) never mutates
`self.icons`: only the flat branch appends. -/
lemma check_icons_grouped_keeps (ic : Option (List IconElem)) (n i : Nat)
    (r : List IconElem × Option (List IconElem))
    (h : check_icons ic n (some i) = Except.ok r) : r.2 = ic := by
  cases ic with
  | none =>
    simp only [check_icons] at h
    injection h with h2
    rw [← h2]
  | some l =>
    cases l with
    | nil => simp [check_icons] at h
    | cons e t =>
      cases e with
      | str s => simp [check_icons] at h
      | list xs =>
        simp only [check_icons] at h
        rcases hg : (IconElem.list xs :: t).get? i with _ | el
        · rw [hg] at h
          injection h with h2
          rw [← h2]
        · cases el with
          | str s =>
            rw [hg] at h
            injection h with h2
            rw [← h2]
          | list ys =>
            rw [hg] at h
            injection h with h2
            rw [← h2]

/-- The grouped loop threads `self.icons` through unchanged. -/
lemma buildGroups_keeps_icons (ov : List (String × String)) (pfx color : String)
    (group_by : List (List String)) :
    ∀ (gis : List (Nat × String)) (icons : Option (List IconElem))
      (r : List GroupOut × Option (List IconElem)),
    buildGroups ov pfx color group_by icons gis = Except.ok r → r.2 = icons := by
  intro gis
  induction gis with
  | nil =>
    intro icons r h
    simp only [buildGroups] at h
    injection h with h2
    rw [← h2]
  | cons ig rest ih =>
    obtain ⟨i, gname⟩ := ig
    intro icons r h
    simp only [buildGroups] at h
    rcases hg : group_by.get? i with _ | layer_name
    · rw [hg] at h
      exact absurd h (by simp)
    · rw [hg] at h
      simp only [] at h
      rcases hci : check_icons icons layer_name.length (some i) with e | rr
      · rw [hci] at h
        exact absurd h (by simp)
      · rw [hci] at h
        simp only [] at h
        rcases hmm : mapExcept (fun pr => create_layer ov pfx color pr.1 pr.2)
            (layer_name.zip rr.1) with e | entries
        · rw [hmm] at h
          exact absurd h (by simp)
        · rw [hmm] at h
          simp only [] at h
          rcases hbg : buildGroups ov pfx color group_by rr.2 rest with e | r2
          · rw [hbg] at h
            exact absurd h (by simp)
          · rw [hbg] at h
            simp only [] at h
            injection h with h2
            have hk1 : rr.2 = icons :=
              check_icons_grouped_keeps icons layer_name.length i rr hci
            have hk2 : r2.2 = rr.2 := ih rr.2 r2 hbg
            rw [← h2]
            show r2.2 = icons
            rw [hk2, hk1]

/-- A successful `render` ends in one of the two panel-building branches,
and the new `icons` field is the second component either of the flat
`_check_icons` call or of the grouped loop. -/
lemma render_ok_cases (p : PanelLayer) (cs : List LayerItem) (p' : PanelLayer)
    (hok : render p cs = Except.ok p') :
    ∃ r : List IconElem × Option (List IconElem),
      p'.icons = r.2 ∧
      ((p.group_by.isEmpty = true ∧
          check_icons p.icons
            (scanChildren ⟨p.base_layers, p.overlayers, p.layers_untoggle⟩
              cs).ov.length none = Except.ok r)
        ∨ (p.group_by.isEmpty = false
            ∧ ∃ rg : List GroupOut × Option (List IconElem),
            buildGroups
              (scanChildren ⟨p.base_layers, p.overlayers, p.layers_untoggle⟩
                cs).ov p.pfx p.color p.group_by p.icons
              ((dgnElems p.data_group_name).enum) = Except.ok rg
              ∧ r.2 = rg.2)) := by
  simp only [render] at hok
  split at hok
  · exact absurd hok (by simp)
  · split at hok
    · next hemp =>
      rcases hci : check_icons p.icons
          (scanChildren ⟨p.base_layers, p.overlayers, p.layers_untoggle⟩
            cs).ov.length none with e | r
      · rw [hci] at hok
        exact absurd hok (by simp)
      · rw [hci] at hok
        simp only [] at hok
        rcases hmm : mapExcept (fun pr => create_layer
            (scanChildren ⟨p.base_layers, p.overlayers, p.layers_untoggle⟩
              cs).ov p.pfx p.color pr.1 pr.2)
            (((scanChildren ⟨p.base_layers, p.overlayers, p.layers_untoggle⟩
              cs).ov.map Prod.fst).zip r.1) with e | entries
        · rw [hmm] at hok
          exact absurd hok (by simp)
        · rw [hmm] at hok
          simp only [] at hok
          injection hok with h2
          refine ⟨r, ?_, Or.inl ⟨by simpa using hemp, rfl⟩⟩
          rw [← h2]
    · next hemp =>
      split at hok
      · rcases hbg : buildGroups
            (scanChildren ⟨p.base_layers, p.overlayers, p.layers_untoggle⟩
              cs).ov p.pfx p.color p.group_by p.icons
            ((dgnElems p.data_group_name).enum) with e | rg
        · rw [hbg] at hok
          exact absurd hok (by simp)
        · rw [hbg] at hok
          simp only [] at hok
          injection hok with h2
          refine ⟨([], rg.2), ?_, Or.inr ⟨by simpa using hemp, rg, rfl, rfl⟩⟩
          rw [← h2]
      · exact absurd hok (by simp)

/-- C8 (amended): `render` leaves the `icons` configuration untouched
except in the one case the counterexample exhibits — ungrouped mode with a
supplied flat icon list shorter than the overlay count, where the padding
appends a sentinel to the caller's list.  With no icon list, with at least
as many icons as overlay layers, or in grouped mode, the `icons` attribute
after `render` equals the one supplied at construction. -/
theorem c8_render_icons_preserved (p : PanelLayer) (cs : List LayerItem)
    (p' : PanelLayer) (hok : render p cs = Except.ok p')
    (h : p.icons = none ∨ p.group_by ≠ [] ∨
      ∀ l, p.icons = some l →
        (scanChildren ⟨p.base_layers, p.overlayers, p.layers_untoggle⟩
          cs).ov.length ≤ l.length) :
    p'.icons = p.icons := by
  obtain ⟨r, hpi, hcase⟩ := render_ok_cases p cs p' hok
  cases hcase with
  | inl hc =>
    obtain ⟨hemp, hci⟩ := hc
    cases hic : p.icons with
    | none =>
      rw [hic] at hci
      simp only [check_icons] at hci
      injection hci with h2
      rw [hpi, ← h2]
    | some l =>
      have hgb : p.group_by = [] := by simpa using hemp
      have hlen : (scanChildren ⟨p.base_layers, p.overlayers, p.layers_untoggle⟩
          cs).ov.length ≤ l.length := by
        rcases h with h1 | h2 | h3
        · rw [hic] at h1
          exact absurd h1 (by simp)
        · exact absurd hgb h2
        · exact h3 l hic
      rw [hic] at hci
      simp only [check_icons] at hci
      rw [if_neg (by omega)] at hci
      injection hci with h2
      rw [hpi, ← h2]
  | inr hc =>
    obtain ⟨hemp, rg, hbg, hr2⟩ := hc
    rw [hpi, hr2]
    exact buildGroups_keeps_icons _ _ _ _ _ _ _ hbg

/-- Witness for the amended C8: default configuration (no icons), empty
child list: `render` succeeds and the `icons` attribute is unchanged. -/
theorem c8_amended_witness :
    (render c8a_p [] = Except.ok { c8a_p with overlayers_data := [⟨" ", []⟩] }
      ∧ (c8a_p.icons = none ∨ c8a_p.group_by ≠ [] ∨
          ∀ l, c8a_p.icons = some l →
            (scanChildren ⟨c8a_p.base_layers, c8a_p.overlayers,
                c8a_p.layers_untoggle⟩ []).ov.length ≤ l.length))
    ∧ ({ c8a_p with overlayers_data := [⟨" ", []⟩] } : PanelLayer).icons
        = c8a_p.icons :=
  ⟨⟨rfl, Or.inl rfl⟩,
   c8_render_icons_preserved c8a_p [] _ rfl (Or.inl rfl)⟩

end Folium
